import Mathlib

/-!
Verification of `cspice/src/time/date_time.rs` (the `DateTime<Calendar, Scale>`
civil date/time value type and its conversions).

Modelling conventions:
* Rust machine integers are modelled as `Int`/`Nat`; the `i16` arithmetic in the
  BC-year rewrite of `to_et` is modelled with checked operations (`Option`),
  where `none` stands for the debug-mode overflow panic.
* Rust `f32`/`f64` values are modelled as exact rationals (`ℚ`).  All the
  float computations that the settled claims touch (`zone as f64 / 3600.0`,
  `floor`, `fract`, `* 60.0`, the `as i32` truncating cast, the chrono adapter
  at its specified probe point) are exact at the inputs considered, so the
  rational model coincides with the IEEE evaluation there.
* The external ephemeris service (`SPICE::string_to_et`) is an injected
  function `String → Except ConversionError ℚ`; the peer Julian-Date and
  inverse conversions (not part of this crate's sources) are likewise
  injected functions.
* The `Result::unwrap()` inside `to_et` turns a service rejection into a Rust
  panic; the panic outcome is modelled by the `EtResult.unwrapPanic` branch,
  which carries the service's `ConversionError` (the value `unwrap` embeds in
  the panic payload).  The i16 overflow panic is `EtResult.overflowPanic`.
* The `Calendar`/`Scale` type tags only contribute their static name strings
  (`S::name()`, `C::short_name()`), which are passed as parameters.
-/

namespace Cspice

/-- The error produced when the ephemeris service rejects a composed date
string (`SPICE::string_to_et`'s error type, opaque to this crate). -/
structure ConversionError where
  msg : String
deriving DecidableEq

/-- i16::MIN. -/
def i16Min : Int := -32768

/-- i16::MAX. -/
def i16Max : Int := 32767

/-- Checked `i16::abs`: `none` models the debug overflow panic at `i16::MIN`
("attempt to negate with overflow"). -/
def i16Abs (y : Int) : Option Int :=
  if y = i16Min then none else some |y|

/-- Checked i16 increment, modelling the `+ 1` in `self.year.abs() + 1`
(`none` models the debug overflow panic when the sum exceeds `i16::MAX`). -/
def i16AddOne (a : Int) : Option Int :=
  if a + 1 ≤ i16Max then some (a + 1) else none

/-- Rust's `f64::trunc` / the `as i32` float-to-int cast: truncation toward
zero, on the exact rational model. -/
def ratTrunc (q : ℚ) : Int :=
  if 0 ≤ q then q.floor else -(-q).floor

/-- Rust's `f64::fract`: `self - self.trunc()` (keeps the sign of `self`). -/
def ratFract (q : ℚ) : ℚ :=
  q - ratTrunc q

/-- Decimal digits of a fractional part `0 ≤ q < 1`, fuelled (all f32/f64
fractional parts are dyadic, so 64 digits of fuel always suffice). -/
def fracDigits : Nat → ℚ → String
  | 0, _ => ""
  | fuel + 1, q =>
    if q = 0 then ""
    else
      let q10 := q * 10
      toString q10.floor ++ fracDigits fuel (q10 - q10.floor)

/-- Rust `Display` for an `f32`/`f64` value on the exact rational model:
an integral value prints with no fractional part (`5.0` prints as `5`),
otherwise integer part, a dot, and the (finite, dyadic) decimal fraction. -/
def fmtFloat (q : ℚ) : String :=
  let sign := if q < 0 then "-" else ""
  let a := |q|
  let ip := a.floor
  let fp := a - ip
  if fp = 0 then sign ++ toString ip
  else sign ++ toString ip ++ "." ++ fracDigits 64 fp

/-- Rust `{:+}` formatting of an integer: an explicit sign is always shown. -/
def fmtSignedInt (z : Int) : String :=
  if 0 ≤ z then "+" ++ toString z else toString z

/-- `DateTime<C, S>` from `date_time.rs`: civil fields plus a signed zone
offset in seconds.  `year` is `i16`, `month`/`day`/`hour`/`minute` are `u8`,
`second` is `f32` (modelled as ℚ), `zone` is `i32`. -/
structure DateTime where
  year : Int
  month : Nat
  day : Nat
  hour : Nat
  minute : Nat
  second : ℚ
  zone : Int
deriving DecidableEq

/-- `DateTime::with_zone`: stores every argument verbatim, no validation. -/
def DateTime.with_zone (year : Int) (month day hour minute : Nat) (second : ℚ)
    (zone : Int) : DateTime :=
  { year := year, month := month, day := day, hour := hour, minute := minute,
    second := second, zone := zone }

/-- `DateTime::new`: delegates to `with_zone` with a zone offset of 0. -/
def DateTime.new (year : Int) (month day hour minute : Nat) (second : ℚ) :
    DateTime :=
  DateTime.with_zone year month day hour minute second 0

/-- The year fragment of the date string composed by `to_et`:
`if self.year > 0 { self.year.to_string() } else { format!("{} BC", self.year.abs() + 1) }`,
with the i16 arithmetic checked (`none` = overflow panic). -/
def yearString (year : Int) : Option String :=
  if 0 < year then some (toString year)
  else do
    let a ← i16Abs year
    let n ← i16AddOne a
    some (toString n ++ " BC")

/-- The date string composed by `to_et`:
`format!("{year}-{}-{} {}:{}:{} {} {}", month, day, hour, minute, second, S::name(), C::short_name())`. -/
def composeDate (scaleName calShortName : String) (dt : DateTime) :
    Option String :=
  (yearString dt.year).map fun y =>
    y ++ "-" ++ toString dt.month ++ "-" ++ toString dt.day ++ " " ++
    toString dt.hour ++ ":" ++ toString dt.minute ++ ":" ++
    fmtFloat dt.second ++ " " ++ scaleName ++ " " ++ calShortName

/-- Outcome of `DateTime::to_et` (and of `to_julian_date`, which composes on
top of it): a value, the i16-overflow panic from the BC-year rewrite, or the
`Result::unwrap()` panic carrying the service's rejection. -/
inductive EtResult where
  | ok (et : ℚ)
  | overflowPanic
  | unwrapPanic (e : ConversionError)
deriving DecidableEq

/-- `DateTime::to_et`: compose the date string, hand it to the service
(`spice.string_to_et(date).unwrap()`), then subtract the stored zone offset:
`ET(et.0 - self.zone as f64)`. -/
def to_et (string_to_et : String → Except ConversionError ℚ)
    (scaleName calShortName : String) (dt : DateTime) : EtResult :=
  match composeDate scaleName calShortName dt with
  | none => .overflowPanic
  | some date =>
    match string_to_et date with
    | .ok et => .ok (et - dt.zone)
    | .error e => .unwrapPanic e

/-- `DateTime::to_julian_date`: `self.to_et(spice).to_julian_date(spice)`;
the `ET → JulianDate` conversion is the peer type's, injected as `etToJd`. -/
def to_julian_date (string_to_et : String → Except ConversionError ℚ)
    (scaleName calShortName : String) (etToJd : ℚ → ℚ) (dt : DateTime) :
    EtResult :=
  match to_et string_to_et scaleName calShortName dt with
  | .ok et => .ok (etToJd et)
  | .overflowPanic => .overflowPanic
  | .unwrapPanic e => .unwrapPanic e

/-- `DateTime::from_julian_date`: `jd.to_et(spice).to_date_time(spice)`;
both delegated operations (peer Julian-Date type and the service's inverse)
are injected. -/
def from_julian_date (jdToEt : ℚ → ℚ) (etToDateTime : ℚ → DateTime)
    (jd : ℚ) : DateTime :=
  etToDateTime (jdToEt jd)

/-- `Display`: `let zone_hrs = self.zone as f64 / 3600.0; zone_hrs.floor() as i32`. -/
def zoneWholeHrs (zone : Int) : Int :=
  ((zone : ℚ) / 3600).floor

/-- `Display`: `(zone_hrs.fract() * 60.0) as i32`. -/
def zoneMins (zone : Int) : Int :=
  ratTrunc (ratFract ((zone : ℚ) / 3600) * 60)

/-- The `{:+}:{mins}` zone fragment of `Display`. -/
def zoneFragment (zone : Int) : String :=
  fmtSignedInt (zoneWholeHrs zone) ++ ":" ++ toString (zoneMins zone)

/-- `impl Display for DateTime`:
`write!(f, "{}-{}-{} {}:{}:{} {:+}:{mins} {} {}", year, month, day, hour, minute, second, whole_hrs, S::name(), C::short_name())`. -/
def displayString (scaleName calShortName : String) (dt : DateTime) : String :=
  toString dt.year ++ "-" ++ toString dt.month ++ "-" ++ toString dt.day ++
  " " ++ toString dt.hour ++ ":" ++ toString dt.minute ++ ":" ++
  fmtFloat dt.second ++ " " ++ zoneFragment dt.zone ++ " " ++
  scaleName ++ " " ++ calShortName

/-- A foreign wall-clock moment (`chrono::DateTime<chrono::FixedOffset>`),
reduced to the accessors the adapter reads: `year()` (i32), `month()`,
`day()`, `hour()`, `minute()`, `second()`, `nanosecond()` (u32), and
`timezone().local_minus_utc()` (i32 seconds). -/
structure ChronoMoment where
  year : Int
  month : Nat
  day : Nat
  hour : Nat
  minute : Nat
  second : Nat
  nanosecond : Nat
  local_minus_utc : Int

/-- Rust `as i16` truncating cast from i32. -/
def wrapI16 (z : Int) : Int :=
  (z + 32768) % 65536 - 32768

/-- Rust `as u8` truncating cast from u32. -/
def wrapU8 (n : Nat) : Nat :=
  n % 256

/-- `impl From<chrono::DateTime<chrono::FixedOffset>> for DateTime<Gregorian, UTC>`:
`let seconds = c.second() as f32 + c.nanosecond() as f32 / 1_000_000.0;`
then `DateTime::with_zone(year as i16, month as u8, day as u8, hour as u8,
minute as u8, seconds, local_minus_utc)`. -/
def fromChrono (c : ChronoMoment) : DateTime :=
  DateTime.with_zone (wrapI16 c.year) (wrapU8 c.month) (wrapU8 c.day)
    (wrapU8 c.hour) (wrapU8 c.minute)
    ((c.second : ℚ) + (c.nanosecond : ℚ) / 1000000)
    c.local_minus_utc

/-! ## Helper lemmas -/

theorem ratFloor_eq_floor (q : ℚ) : q.floor = ⌊q⌋ :=
  (Rat.floor_def' q).trans Rat.floor_def.symm

theorem ratTrunc_of_nonneg {q : ℚ} (h : 0 ≤ q) : ratTrunc q = ⌊q⌋ := by
  rw [ratTrunc, if_pos h, ratFloor_eq_floor]

theorem ratTrunc_neg (q : ℚ) : ratTrunc (-q) = -ratTrunc q := by
  rcases lt_trichotomy q 0 with h | h | h
  · have h1 : 0 ≤ -q := by linarith
    have h2 : ¬ 0 ≤ q := not_le.mpr h
    simp only [ratTrunc, if_pos h1, if_neg h2, neg_neg]
  · subst h
    simp [ratTrunc, ratFloor_eq_floor]
  · have h1 : ¬ 0 ≤ -q := by simp only [Left.nonneg_neg_iff, not_le]; exact h
    have h2 : 0 ≤ q := le_of_lt h
    simp only [ratTrunc, if_neg h1, if_pos h2, neg_neg]

theorem ratFract_neg (q : ℚ) : ratFract (-q) = -ratFract q := by
  unfold ratFract
  rw [ratTrunc_neg]
  push_cast
  ring

theorem int_neg_tmod (a b : Int) : (-a).tmod b = -a.tmod b := by
  rw [Int.tmod_def, Int.tmod_def, Int.neg_tdiv]
  ring

theorem zoneWholeHrs_eq_fdiv (z : Int) : zoneWholeHrs z = z.fdiv 3600 := by
  unfold zoneWholeHrs
  rw [ratFloor_eq_floor, show (3600 : ℚ) = ((3600 : ℕ) : ℚ) by norm_num,
    Rat.floor_intCast_div_natCast, Int.fdiv_eq_ediv _ (by decide)]
  norm_num

theorem zoneMins_neg (z : Int) : zoneMins (-z) = -zoneMins z := by
  unfold zoneMins
  rw [show (((-z : Int) : ℚ)) / 3600 = -((z : ℚ) / 3600) by push_cast; ring,
    ratFract_neg, neg_mul, ratTrunc_neg]

theorem zoneMins_eq_of_nonneg (z : Int) (hz : 0 ≤ z) :
    zoneMins z = (z.tmod 3600).tdiv 60 := by
  have hfloor : ⌊(z : ℚ) / 3600⌋ = z / 3600 := by
    rw [show (3600 : ℚ) = ((3600 : ℕ) : ℚ) by norm_num,
      Rat.floor_intCast_div_natCast]
    norm_num
  have hq : 0 ≤ (z : ℚ) / 3600 :=
    div_nonneg (by exact_mod_cast hz) (by norm_num)
  have hrnn : 0 ≤ z % 3600 := Int.emod_nonneg z (by decide)
  have hfract : ratFract ((z : ℚ) / 3600) = ((z % 3600 : Int) : ℚ) / 3600 := by
    rw [ratFract, ratTrunc_of_nonneg hq, hfloor, Int.emod_def]
    push_cast
    ring
  have hmins : zoneMins z = ⌊((z % 3600 : Int) : ℚ) / 60⌋ := by
    unfold zoneMins
    rw [hfract, show ((z % 3600 : Int) : ℚ) / 3600 * 60 = ((z % 3600 : Int) : ℚ) / 60 by ring,
      ratTrunc_of_nonneg (div_nonneg (by exact_mod_cast hrnn) (by norm_num))]
  rw [hmins, show (60 : ℚ) = ((60 : ℕ) : ℚ) by norm_num,
    Rat.floor_intCast_div_natCast, Int.tmod_eq_emod hz (by decide),
    Int.tdiv_eq_ediv hrnn (by decide)]
  norm_num

theorem zoneMins_eq_tdiv_tmod (z : Int) : zoneMins z = (z.tmod 3600).tdiv 60 := by
  rcases le_or_lt 0 z with hz | hz
  · exact zoneMins_eq_of_nonneg z hz
  · have h1 : 0 ≤ -z := by linarith
    have h2 := zoneMins_eq_of_nonneg (-z) h1
    have h3 : zoneMins z = -zoneMins (-z) := by
      rw [zoneMins_neg z]; ring
    rw [h3, h2, int_neg_tmod, Int.neg_tdiv, neg_neg]

theorem yearString_eq (y : Int) (h : -32768 ≤ y) :
    yearString y =
      if 0 < y then some (toString y)
      else if -32766 ≤ y then some (toString (-y + 1) ++ " BC") else none := by
  unfold yearString i16Abs i16AddOne i16Min i16Max
  rcases lt_or_le 0 y with hy | hy
  · simp [hy]
  · rw [if_neg (not_lt.mpr hy), if_neg (not_lt.mpr hy)]
    by_cases h1 : y = -32768
    · subst h1
      norm_num
    · have ha : |y| = -y := abs_of_nonpos hy
      by_cases h2 : -32766 ≤ y
      · have h3 : -y + 1 ≤ 32767 := by omega
        simp [h1, ha, h3, h2]
      · have h3 : ¬(-y + 1 ≤ 32767) := by omega
        simp [h1, ha, h3, h2]

theorem fmtFloat_intCast_nonneg (n : Int) (hn : 0 ≤ n) :
    fmtFloat (n : ℚ) = toString n := by
  have h1 : ¬ ((n : ℚ) < 0) := by
    rw [not_lt]
    exact_mod_cast hn
  have h2 : |(n : ℚ)| = (n : ℚ) := abs_of_nonneg (by exact_mod_cast hn)
  simp only [fmtFloat, if_neg h1, h2, ratFloor_eq_floor, Int.floor_intCast,
    sub_self, if_pos, String.empty_append]

theorem fmtFloat_zero : fmtFloat 0 = "0" := by
  have h := fmtFloat_intCast_nonneg 0 (by norm_num)
  simpa using h

theorem fmtFloat_five : fmtFloat 5 = "5" := by
  have h := fmtFloat_intCast_nonneg 5 (by norm_num)
  rw [show ((5 : Int) : ℚ) = 5 by norm_num] at h
  rw [h]
  decide

theorem fracDigits_half : fracDigits 64 (1/2 : ℚ) = "5" := by
  rw [show (64 : ℕ) = 63 + 1 from rfl, fracDigits]
  norm_num
  rw [ratFloor_eq_floor, show ⌊(5 : ℚ)⌋ = 5 by norm_num]
  rw [show (5 : ℚ) - ((5 : Int) : ℚ) = 0 by norm_num]
  rw [show (63 : ℕ) = 62 + 1 from rfl, fracDigits]
  norm_num
  decide

theorem fmtFloat_halfway : fmtFloat (30.5 : ℚ) = "30.5" := by
  have h1 : ¬ ((30.5 : ℚ) < 0) := by norm_num
  have h2 : |(30.5 : ℚ)| = (30.5 : ℚ) := abs_of_nonneg (by norm_num)
  simp only [fmtFloat, if_neg h1, h2, ratFloor_eq_floor]
  rw [show ⌊(30.5 : ℚ)⌋ = 30 by norm_num [Int.floor_eq_iff]]
  rw [show (30.5 : ℚ) - ((30 : Int) : ℚ) = 1/2 by norm_num]
  rw [if_neg (by norm_num), fracDigits_half]
  decide

/-! ## Claim theorems -/

/-- C1: for every `DateTime`, `to_et` composes the date string from the civil
fields, the scale name and the calendar short name (`composeDate`), and when
the service parses that string successfully the returned absolute-time
coordinate is the service's result minus the stored zone offset in seconds:
`absolute = service_parse(local_fields_as_string) − zone_seconds`. -/
theorem to_et_service_minus_zone
    (string_to_et : String → Except ConversionError ℚ)
    (scaleName calShortName : String) (dt : DateTime) (date : String) (v : ℚ)
    (hdate : composeDate scaleName calShortName dt = some date)
    (hsvc : string_to_et date = .ok v) :
    to_et string_to_et scaleName calShortName dt = .ok (v - dt.zone) := by
  unfold to_et
  simp only [hdate, hsvc]

/-- C1 witness: a concrete `DateTime` with zone offset 7 s; the composed
string is exactly `"1-2-3 4:5:0 UTC G"` and the returned coordinate is the
service's 100 minus the 7-second zone. -/
theorem to_et_service_minus_zone_witness :
    to_et (fun s => if s = "1-2-3 4:5:0 UTC G" then .ok 100 else .error ⟨"unparsed"⟩)
      "UTC" "G" (DateTime.with_zone 1 2 3 4 5 0 7) = .ok 93 := by
  have hdate : composeDate "UTC" "G" (DateTime.with_zone 1 2 3 4 5 0 7) =
      some "1-2-3 4:5:0 UTC G" := by
    simp only [composeDate, yearString, DateTime.with_zone, fmtFloat_zero]
    norm_num
    decide
  have h := to_et_service_minus_zone
    (fun s => if s = "1-2-3 4:5:0 UTC G" then .ok 100 else .error ⟨"unparsed"⟩)
    "UTC" "G" (DateTime.with_zone 1 2 3 4 5 0 7) "1-2-3 4:5:0 UTC G" 100
    hdate (by norm_num)
  rw [h]
  norm_num [DateTime.with_zone]

/-- C4: two `DateTime`s with identical civil fields, one with zone `z` and
one with zone 0, compose the same date string, and when the zone-0 conversion
succeeds with coordinate `v`, the zone-`z` conversion succeeds with exactly
`v − z`. -/
theorem to_et_zone_shift
    (string_to_et : String → Except ConversionError ℚ)
    (scaleName calShortName : String)
    (year : Int) (month day hour minute : Nat) (second : ℚ) (z : Int) (v : ℚ)
    (h0 : to_et string_to_et scaleName calShortName
      (DateTime.with_zone year month day hour minute second 0) = .ok v) :
    to_et string_to_et scaleName calShortName
      (DateTime.with_zone year month day hour minute second z) = .ok (v - z) ∧
    composeDate scaleName calShortName
      (DateTime.with_zone year month day hour minute second z) =
    composeDate scaleName calShortName
      (DateTime.with_zone year month day hour minute second 0) := by
  refine ⟨?_, rfl⟩
  have hz0 : (DateTime.with_zone year month day hour minute second 0).zone = 0 := rfl
  have hzz : (DateTime.with_zone year month day hour minute second z).zone = z := rfl
  have hsame : composeDate scaleName calShortName
      (DateTime.with_zone year month day hour minute second z) =
    composeDate scaleName calShortName
      (DateTime.with_zone year month day hour minute second 0) := rfl
  unfold to_et at h0 ⊢
  rw [hz0] at h0
  rw [hzz, hsame]
  cases hcd : composeDate scaleName calShortName
      (DateTime.with_zone year month day hour minute second 0) with
  | none =>
    simp only [hcd] at h0
    exact EtResult.noConfusion h0
  | some date =>
    simp only [hcd] at h0
    cases hsvc : string_to_et date with
    | error e =>
      simp only [hsvc] at h0
      exact EtResult.noConfusion h0
    | ok et =>
      simp only [hsvc, EtResult.ok.injEq, Int.cast_zero, sub_zero] at h0
      subst h0
      simp only [hcd, hsvc]

/-- C4 witness: identical civil fields, zone 3600 versus zone 0, a service
returning coordinate 100: the zone-3600 result is 100 − 3600 = −3500. -/
theorem to_et_zone_shift_witness :
    to_et (fun _ => .ok 100) "UTC" "G"
      (DateTime.with_zone 2022 6 15 12 30 0 3600) = .ok (-3500) ∧
    composeDate "UTC" "G" (DateTime.with_zone 2022 6 15 12 30 0 3600) =
      composeDate "UTC" "G" (DateTime.with_zone 2022 6 15 12 30 0 0) := by
  have h0 : to_et (fun _ => .ok 100) "UTC" "G"
      (DateTime.with_zone 2022 6 15 12 30 0 0) = .ok 100 := by
    show EtResult.ok (100 - ((0 : Int) : ℚ)) = .ok 100
    norm_num
  have h := to_et_zone_shift (fun _ => .ok 100) "UTC" "G"
    2022 6 15 12 30 0 3600 100 h0
  refine ⟨?_, h.2⟩
  rw [h.1]
  norm_num

/-- C5: when the ephemeris service rejects the composed date string, `to_et`
performs no recovery, retry or fallback; the resulting outcome is the
unrecoverable `unwrapPanic` (the `Result::unwrap()` panic) carrying the
service's `ConversionError` unchanged. -/
theorem to_et_error_unchanged
    (string_to_et : String → Except ConversionError ℚ)
    (scaleName calShortName : String) (dt : DateTime) (date : String)
    (e : ConversionError)
    (hdate : composeDate scaleName calShortName dt = some date)
    (hsvc : string_to_et date = .error e) :
    to_et string_to_et scaleName calShortName dt = .unwrapPanic e := by
  unfold to_et
  simp only [hdate, hsvc]

/-- C5 witness: a service that rejects everything with a concrete error; the
conversion surfaces exactly that error in the panic outcome. -/
theorem to_et_error_unchanged_witness :
    to_et (fun _ => .error ⟨"SPICE(UNPARSEDTIME)"⟩) "UTC" "G"
      (DateTime.with_zone 2000 13 99 0 0 0 0) =
      .unwrapPanic ⟨"SPICE(UNPARSEDTIME)"⟩ := by
  have hdate : composeDate "UTC" "G" (DateTime.with_zone 2000 13 99 0 0 0 0) =
      some "2000-13-99 0:0:0 UTC G" := by
    simp only [composeDate, yearString, DateTime.with_zone, fmtFloat_zero]
    norm_num
    decide
  exact to_et_error_unchanged (fun _ => .error ⟨"SPICE(UNPARSEDTIME)"⟩)
    "UTC" "G" (DateTime.with_zone 2000 13 99 0 0 0 0) "2000-13-99 0:0:0 UTC G"
    ⟨"SPICE(UNPARSEDTIME)"⟩ hdate rfl

/-- C8: `new(year, month, day, hour, minute, second)` equals `with_zone` with
a zone offset of 0, and `with_zone` stores every argument verbatim in the
corresponding field with no validation — including semantically invalid
dates such as month 13. -/
theorem constructors_verbatim (year : Int) (month day hour minute : Nat)
    (second : ℚ) (zone : Int) :
    DateTime.new year month day hour minute second =
      DateTime.with_zone year month day hour minute second 0 ∧
    (DateTime.with_zone year month day hour minute second zone).year = year ∧
    (DateTime.with_zone year month day hour minute second zone).month = month ∧
    (DateTime.with_zone year month day hour minute second zone).day = day ∧
    (DateTime.with_zone year month day hour minute second zone).hour = hour ∧
    (DateTime.with_zone year month day hour minute second zone).minute = minute ∧
    (DateTime.with_zone year month day hour minute second zone).second = second ∧
    (DateTime.with_zone year month day hour minute second zone).zone = zone ∧
    (DateTime.with_zone 2022 13 32 25 61 99 0).month = 13 :=
  ⟨rfl, rfl, rfl, rfl, rfl, rfl, rfl, rfl, rfl⟩

/-- C2 counterexample: the claim's decomposition fails on the code for a
negative offset: −5400 s renders as `-2:-30` (floor gives hour −2, and the
truncated `fract * 60` minutes component is −30, which is negative), not the
claimed `-1:30` with non-negative minutes. -/
theorem display_zone_asymmetry_cex :
    zoneFragment (-5400) = "-2:-30" ∧ zoneFragment (-5400) ≠ "-1:30" ∧
    zoneMins (-5400) = -30 := by
  simp only [zoneFragment, zoneWholeHrs_eq_fdiv, zoneMins_eq_tdiv_tmod]
  decide

/-- C2 (amended): the zone offset is decomposed into a floor-division hour
`z.fdiv 3600` and a minutes component `(z.tmod 3600).tdiv 60` (truncation of
the fractional hour times 60, which carries the sign of the offset, so it is
non-negative only for non-negative offsets); 0 renders `+0:0`, 3600 renders
`+1:0`, 5400 renders `+1:30`, and −5400 renders `-2:-30`. -/
theorem display_zone_decomposition (z : Int) :
    zoneWholeHrs z = z.fdiv 3600 ∧ zoneMins z = (z.tmod 3600).tdiv 60 ∧
    zoneFragment 0 = "+0:0" ∧ zoneFragment 3600 = "+1:0" ∧
    zoneFragment 5400 = "+1:30" ∧ zoneFragment (-5400) = "-2:-30" := by
  refine ⟨zoneWholeHrs_eq_fdiv z, zoneMins_eq_tdiv_tmod z, ?_, ?_, ?_, ?_⟩ <;>
    · simp only [zoneFragment, zoneWholeHrs_eq_fdiv, zoneMins_eq_tdiv_tmod]
      decide

/-- C3 counterexample: the BC rewrite is not produced for every non-positive
year: at year −32767 the 16-bit `|year| + 1` overflows (and at −32768 the
absolute value itself overflows), so the code yields no fragment instead of
`"32768 BC"`. -/
theorem bc_year_rewrite_cex :
    yearString (-32767) = none ∧ yearString (-32767) ≠ some "32768 BC" ∧
    yearString (-32768) = none := by
  decide

/-- C3 (amended): in the composed date string every positive year appears in
plain decimal form, every year in `[-32766, 0]` is rewritten as
`"(|year|+1) BC"`, and the two most negative i16 years (−32767 and −32768)
overflow the 16-bit arithmetic and produce no fragment. -/
theorem bc_year_rewrite (y : Int) (h : -32768 ≤ y) :
    yearString y =
      if 0 < y then some (toString y)
      else if -32766 ≤ y then some (toString (-y + 1) ++ " BC") else none :=
  yearString_eq y h

/-- C3 witness: year 0 composes to `"1 BC"`, year −1 to `"2 BC"`, and year 1
to plain `"1"`. -/
theorem bc_year_rewrite_witness :
    yearString 0 = some "1 BC" ∧ yearString (-1) = some "2 BC" ∧
    yearString 1 = some "1" := by
  refine ⟨?_, ?_, ?_⟩
  · rw [bc_year_rewrite 0 (by decide)]
    decide
  · rw [bc_year_rewrite (-1) (by decide)]
    decide
  · rw [bc_year_rewrite 1 (by decide)]
    decide

/-- C6: the foreign wall-clock adapter folds the sub-second fraction into the
seconds field as `whole_seconds + fractional_nanoseconds / 1_000_000` and
stores the moment's offset-from-UTC seconds as the zone; at whole-seconds 30
with 500,000,000 ns the seconds field is `30 + 500`. -/
theorem from_chrono_micro_scaling (c : ChronoMoment) :
    (fromChrono c).second = (c.second : ℚ) + (c.nanosecond : ℚ) / 1000000 ∧
    (fromChrono c).zone = c.local_minus_utc ∧
    (fromChrono ⟨2000, 6, 1, 12, 0, 30, 500000000, 0⟩).second = 30 + 500 := by
  refine ⟨rfl, rfl, ?_⟩
  show ((30 : ℕ) : ℚ) + ((500000000 : ℕ) : ℚ) / 1000000 = 30 + 500
  norm_num

/-- C7 counterexample: the fields are rendered with no zero padding, so the
claimed two-digit/four-digit `YYYY-MM-DD HH:MM:SS ±H:MM` widths do not hold:
the value 2000-01-02 03:04:05 at zone 0 renders `"2000-1-2 3:4:5 +0:0 ..."`,
not `"2000-01-02 03:04:05 +0:00 ..."`. -/
theorem display_no_padding_cex :
    displayString "UTC" "GREGORIAN" (DateTime.with_zone 2000 1 2 3 4 5 0) =
      "2000-1-2 3:4:5 +0:0 UTC GREGORIAN" ∧
    "2000-1-2 3:4:5 +0:0 UTC GREGORIAN" ≠
      "2000-01-02 03:04:05 +0:00 UTC GREGORIAN" := by
  constructor
  · simp only [displayString, zoneFragment, zoneWholeHrs_eq_fdiv,
      zoneMins_eq_tdiv_tmod, DateTime.with_zone, fmtFloat_five]
    decide
  · decide

/-- C7 (amended): `Display` produces the single canonical layout
year-month-day, space, hour:minute:second, space, signed zone hour and
minutes, space, scale name, space, calendar short name — with every numeric
field in plain (unpadded) decimal and the zone hour always carrying an
explicit sign. -/
theorem display_layout (scaleName calShortName : String) (dt : DateTime) :
    displayString scaleName calShortName dt =
      toString dt.year ++ "-" ++ toString dt.month ++ "-" ++ toString dt.day ++
      " " ++ toString dt.hour ++ ":" ++ toString dt.minute ++ ":" ++
      fmtFloat dt.second ++ " " ++
      (fmtSignedInt (zoneWholeHrs dt.zone) ++ ":" ++ toString (zoneMins dt.zone)) ++
      " " ++ scaleName ++ " " ++ calShortName ∧
    displayString "TDB" "JULIAN"
      (DateTime.with_zone 1 12 31 23 59 (30.5 : ℚ) (-5400)) =
      "1-12-31 23:59:30.5 -2:-30 TDB JULIAN" := by
  refine ⟨rfl, ?_⟩
  simp only [displayString, zoneFragment, zoneWholeHrs_eq_fdiv,
    zoneMins_eq_tdiv_tmod, DateTime.with_zone, fmtFloat_halfway]
  decide

/-- C9: `to_julian_date` is exactly `to_et` followed by the peer type's
ET→JulianDate conversion (every outcome of `to_et`, success or panic, is
forwarded with no additional validation), and `from_julian_date` is exactly
the peer JulianDate→ET conversion followed by the service's ET→DateTime
conversion. -/
theorem julian_date_pure_composition
    (string_to_et : String → Except ConversionError ℚ)
    (scaleName calShortName : String) (etToJd jdToEt : ℚ → ℚ)
    (etToDateTime : ℚ → DateTime) (dt : DateTime) (jd v : ℚ)
    (e : ConversionError) :
    (to_et string_to_et scaleName calShortName dt = .ok v →
      to_julian_date string_to_et scaleName calShortName etToJd dt =
        .ok (etToJd v)) ∧
    (to_et string_to_et scaleName calShortName dt = .unwrapPanic e →
      to_julian_date string_to_et scaleName calShortName etToJd dt =
        .unwrapPanic e) ∧
    (to_et string_to_et scaleName calShortName dt = .overflowPanic →
      to_julian_date string_to_et scaleName calShortName etToJd dt =
        .overflowPanic) ∧
    from_julian_date jdToEt etToDateTime jd = etToDateTime (jdToEt jd) := by
  refine ⟨?_, ?_, ?_, rfl⟩ <;>
    · intro h
      unfold to_julian_date
      simp only [h]

/-- C9 witness: with a service returning 100 and a peer conversion adding 1,
`to_julian_date` yields 101; with a peer conversion subtracting 1 and an
inverse building a `DateTime`, `from_julian_date 5` builds the `DateTime`
with seconds 4. -/
theorem julian_date_pure_composition_witness :
    to_julian_date (fun _ => .ok 100) "UTC" "G" (fun x => x + 1)
      (DateTime.with_zone 2024 2 29 0 0 0 0) = .ok 101 ∧
    from_julian_date (fun x => x - 1) (fun x => DateTime.new 0 1 1 0 0 x) 5 =
      DateTime.new 0 1 1 0 0 4 := by
  have h0 : to_et (fun _ => .ok 100) "UTC" "G"
      (DateTime.with_zone 2024 2 29 0 0 0 0) = .ok 100 := by
    show EtResult.ok (100 - ((0 : Int) : ℚ)) = .ok 100
    norm_num
  have h := julian_date_pure_composition (fun _ => .ok 100) "UTC" "G"
    (fun x => x + 1) (fun x => x - 1) (fun x => DateTime.new 0 1 1 0 0 x)
    (DateTime.with_zone 2024 2 29 0 0 0 0) 5 100 ⟨""⟩
  refine ⟨?_, ?_⟩
  · have h1 := h.1 h0
    rw [h1]
    norm_num
  · have h4 := h.2.2.2
    rw [h4]
    norm_num [DateTime.new, DateTime.with_zone]

/-- C10 counterexample: −32767 is strictly greater than i16::MIN = −32768,
yet the 16-bit `|year| + 1` computation still overflows there (the increment
exceeds i16::MAX), so `year > i16::MIN` is not a sufficient precondition. -/
theorem bc_year_overflow_cex :
    (-32768 : Int) < -32767 ∧ yearString (-32767) = none := by
  decide

/-- C10 (amended): over the i16 domain the BC rewrite computation succeeds
exactly for years ≥ −32766; both the absolute-value step at −32768 and the
increment step at −32767 overflow, so `year ≥ −32766` (not `year > −32768`)
is the unstated precondition of the BC rewriting contract. -/
theorem bc_year_overflow_domain (y : Int) (h : -32768 ≤ y) :
    ((yearString y).isSome = true ↔ -32766 ≤ y) ∧
    yearString (-32768) = none ∧ yearString (-32767) = none := by
  refine ⟨?_, by decide, by decide⟩
  rw [yearString_eq y h]
  by_cases h1 : 0 < y
  · simp only [if_pos h1, Option.isSome_some]
    constructor
    · intro _
      omega
    · intro _
      trivial
  · by_cases h2 : -32766 ≤ y
    · simp [h1, h2]
    · simp [h1, h2]

/-- C10 witness: year −32766 is in the representable domain, while −32768
overflows. -/
theorem bc_year_overflow_domain_witness :
    (yearString (-32766)).isSome = true ∧ yearString (-32768) = none := by
  have h := bc_year_overflow_domain (-32766) (by decide)
  exact ⟨h.1.mpr (by decide), h.2.1⟩

end Cspice
